/-
Verification of the IncludeCPP solar-system integration engine
(src/minstall/solar_system/solar_system.cpp).

The C++ code is embedded shallowly: `double` arithmetic is modelled by exact
rationals (ℚ), preserving the order and structure of every operation, and
`std::sqrt` — the only non-rational primitive the engine uses — is passed in
explicitly as a function parameter `sq : ℚ → ℚ`, so every theorem below is
uniform in the square-root routine.  `std::vector` becomes `List`, the
`SolarSystem` class becomes a structure, and each member function becomes a
pure function from the old state to the new state.
-/
import Mathlib

namespace IncludeCPP

/-- Gravitational constant [m³/(kg·s²)], `GRAV = 6.67430e-11` in the source. -/
def GRAV : ℚ := 667430 / 10 ^ 16

/-- Astronomical unit in meters, `AU = 1.495978707e11` in the source. -/
def AU : ℚ := 149597870700

/-- Seconds per day, `DAY = 86400.0` in the source. -/
def DAY : ℚ := 86400

/-- Seconds per year, `YEAR = 365.25 * DAY` in the source. -/
def YEAR : ℚ := (1461 / 4) * DAY

/-- Embedding of `struct CelestialBody`.  Field defaults mirror the C++
default constructor (everything zero, `parent_id = -1`,
`trajectory_max_points = 1000`).  The display-only fields `obliquity`,
`rotation_period` and the reference orbital elements are carried along
unchanged; no operation verified here reads them. -/
structure CelestialBody where
  name : String := ""
  id : Int := 0
  parent_id : Int := -1
  mass : ℚ := 0
  radius : ℚ := 0
  obliquity : ℚ := 0
  rotation_period : ℚ := 0
  x : ℚ := 0
  y : ℚ := 0
  z : ℚ := 0
  vx : ℚ := 0
  vy : ℚ := 0
  vz : ℚ := 0
  ax : ℚ := 0
  ay : ℚ := 0
  az : ℚ := 0
  ax_old : ℚ := 0
  ay_old : ℚ := 0
  az_old : ℚ := 0
  semi_major_axis : ℚ := 0
  eccentricity : ℚ := 0
  inclination : ℚ := 0
  orbital_period : ℚ := 0
  trajectory_x : List ℚ := []
  trajectory_y : List ℚ := []
  trajectory_z : List ℚ := []
  trajectory_max_points : ℕ := 1000
deriving DecidableEq

instance : Inhabited CelestialBody := ⟨{}⟩

/-- Embedding of `CelestialBody::add_trajectory_point`: append the current
position to the three coordinate buffers, then erase the front element of
each if the x-buffer has grown past `trajectory_max_points`. -/
def add_trajectory_point (b : CelestialBody) : CelestialBody :=
  let tx := b.trajectory_x ++ [b.x]
  let ty := b.trajectory_y ++ [b.y]
  let tz := b.trajectory_z ++ [b.z]
  if b.trajectory_max_points < tx.length then
    { b with trajectory_x := tx.drop 1, trajectory_y := ty.drop 1,
             trajectory_z := tz.drop 1 }
  else
    { b with trajectory_x := tx, trajectory_y := ty, trajectory_z := tz }

/-- One push of a single coordinate buffer: the sliding-window core of
`add_trajectory_point`, on one list. -/
def push1 (cap : ℕ) (l : List ℚ) (v : ℚ) : List ℚ :=
  let l2 := l ++ [v]
  if cap < l2.length then l2.drop 1 else l2

/-- Embedding of `class SolarSystem`'s data members. -/
structure SolarSystem where
  bodies : List CelestialBody := []
  simulation_time : ℚ := 0
  total_energy : ℚ := 0
  initial_energy : ℚ := 0
  step_count : Int := 0
deriving DecidableEq

/-- Embedding of `SolarSystem::compute_acceleration(i)`: the net
gravitational acceleration on body `i`, accumulated over all other bodies
`j` in ascending index order, starting from (0,0,0), exactly as the C++
`for (j = 0; j < bodies.size(); j++)` loop does.  Only the new
acceleration triple is returned; the caller stores it. -/
def compute_acceleration (sq : ℚ → ℚ) (bodies : List CelestialBody) (i : ℕ) :
    ℚ × ℚ × ℚ :=
  let bi := bodies.getD i default
  (List.range bodies.length).foldl
    (fun acc j =>
      if j = i then acc
      else
        let bj := bodies.getD j default
        let dx := bj.x - bi.x
        let dy := bj.y - bi.y
        let dz := bj.z - bi.z
        let r_sq := dx * dx + dy * dy + dz * dz
        let r := sq r_sq
        let r_cubed := r_sq * r
        let factor := GRAV * bj.mass / r_cubed
        (acc.1 + factor * dx, acc.2.1 + factor * dy, acc.2.2 + factor * dz))
    (0, 0, 0)

/-- Embedding of `SolarSystem::compute_all_accelerations`: recompute every
body's acceleration from the current positions.  The C++ loop updates
`bodies[i].ax/ay/az` in place; since `compute_acceleration` reads only
positions and masses, which the loop never writes, evaluating every body
against the pre-loop list is extensionally identical. -/
def compute_all_accelerations (sq : ℚ → ℚ) (bodies : List CelestialBody) :
    List CelestialBody :=
  (List.range bodies.length).map (fun i =>
    let b := bodies.getD i default
    let a := compute_acceleration sq bodies i
    { b with ax := a.1, ay := a.2.1, az := a.2.2 })

/-- Embedding of `SolarSystem::step(dt)`: velocity-Verlet.  Four loops in
sequence — save old accelerations, update positions, recompute
accelerations, update velocities — then advance the clock and counter.
There is no validation of `dt` anywhere in the source. -/
def step (sq : ℚ → ℚ) (s : SolarSystem) (dt : ℚ) : SolarSystem :=
  let bodies1 := s.bodies.map (fun b =>
    { b with ax_old := b.ax, ay_old := b.ay, az_old := b.az })
  let bodies2 := bodies1.map (fun b =>
    { b with x := b.x + b.vx * dt + 1/2 * b.ax * dt * dt,
             y := b.y + b.vy * dt + 1/2 * b.ay * dt * dt,
             z := b.z + b.vz * dt + 1/2 * b.az * dt * dt })
  let bodies3 := compute_all_accelerations sq bodies2
  let bodies4 := bodies3.map (fun b =>
    { b with vx := b.vx + 1/2 * (b.ax_old + b.ax) * dt,
             vy := b.vy + 1/2 * (b.ay_old + b.ay) * dt,
             vz := b.vz + 1/2 * (b.az_old + b.az) * dt })
  { s with bodies := bodies4,
           simulation_time := s.simulation_time + dt,
           step_count := s.step_count + 1 }

/-- The intermediate body list of `step` after its first two loops: old
accelerations saved, positions advanced by `v·dt + ½·a·dt²`, velocities
and accelerations still the pre-step ones.  This is the list whose
positions the force evaluator reads in phase 3 of the step. -/
def verlet_half (s : SolarSystem) (dt : ℚ) : List CelestialBody :=
  (s.bodies.map (fun b =>
    { b with ax_old := b.ax, ay_old := b.ay, az_old := b.az })).map
    (fun b =>
      { b with x := b.x + b.vx * dt + 1/2 * b.ax * dt * dt,
               y := b.y + b.vy * dt + 1/2 * b.ay * dt * dt,
               z := b.z + b.vz * dt + 1/2 * b.az * dt * dt })

/-- `static_cast<int>` applied to a `double` quotient: truncation toward
zero, computed directly on the reduced fraction. -/
def ratTrunc (q : ℚ) : Int := q.num.tdiv q.den

/-- The loop body of `SolarSystem::simulate`, iterated over an explicit
list of loop indices: each iteration steps once, and on indices divisible
by 10 records a trajectory point for every body (the stride 10 is
hardcoded in the source: `if (i % 10 == 0)`). -/
def run_steps (sq : ℚ → ℚ) (dt : ℚ) (s : SolarSystem) (idxs : List ℕ) :
    SolarSystem :=
  idxs.foldl
    (fun st i =>
      let st2 := step sq st dt
      if i % 10 = 0 then
        { st2 with bodies := st2.bodies.map add_trajectory_point }
      else st2)
    s

/-- Embedding of `SolarSystem::calculate_total_energy`: kinetic and
potential accumulated in one pass, the inner loop running `j` from `i+1`
upward so each unordered pair is visited once. -/
def calculate_total_energy (sq : ℚ → ℚ) (bodies : List CelestialBody) : ℚ :=
  let n := bodies.length
  let kp := (List.range n).foldl
    (fun (kp : ℚ × ℚ) i =>
      let bi := bodies.getD i default
      let v_sq := bi.vx * bi.vx + bi.vy * bi.vy + bi.vz * bi.vz
      let k := kp.1 + 1/2 * bi.mass * v_sq
      let p := (List.range' (i + 1) (n - (i + 1))).foldl
        (fun p j =>
          let bj := bodies.getD j default
          let dx := bj.x - bi.x
          let dy := bj.y - bi.y
          let dz := bj.z - bi.z
          let r := sq (dx * dx + dy * dy + dz * dz)
          p - GRAV * bi.mass * bj.mass / r)
        kp.2
      (k, p))
    (0, 0)
  kp.1 + kp.2

/-- Embedding of `SolarSystem::simulate(duration, dt)`: run
`static_cast<int>(duration / dt)` iterations of the step-and-sample loop,
then recompute the cached `total_energy` once at the end. -/
def simulate (sq : ℚ → ℚ) (s : SolarSystem) (duration dt : ℚ) : SolarSystem :=
  let steps := ratTrunc (duration / dt)
  let s2 := run_steps sq dt s (List.range steps.toNat)
  { s2 with total_energy := calculate_total_energy sq s2.bodies }

/-- Embedding of `SolarSystem::get_positions`: the flat sequence
[x0,y0,z0, x1,y1,z1, ...] in meters. -/
def get_positions (s : SolarSystem) : List ℚ :=
  (s.bodies.map (fun b => [b.x, b.y, b.z])).flatten

/-- Embedding of `SolarSystem::get_trajectory(body_index)`: the empty list
for an out-of-range index, otherwise the buffered samples flattened oldest
first with every coordinate divided by `AU`. -/
def get_trajectory (s : SolarSystem) (body_index : Int) : List ℚ :=
  if body_index < 0 ∨ (s.bodies.length : Int) ≤ body_index then []
  else
    let b := s.bodies.getD body_index.toNat default
    ((List.range b.trajectory_x.length).map (fun i =>
      [b.trajectory_x.getD i 0 / AU,
       b.trajectory_y.getD i 0 / AU,
       b.trajectory_z.getD i 0 / AU])).flatten

/-- Embedding of `SolarSystem::get_total_energy`: returns the cached field. -/
def get_total_energy (s : SolarSystem) : ℚ := s.total_energy

/-- Embedding of `SolarSystem::get_energy_error`:
`|(total_energy - initial_energy) / initial_energy|` over the cached
fields. -/
def get_energy_error (s : SolarSystem) : ℚ :=
  |(s.total_energy - s.initial_energy) / s.initial_energy|

/-- The spec's error taxonomy (section 7).  No counterpart exists anywhere
in the C++ source; it is declared here only so that the spec's claimed
error behaviour can be stated and compared with the code's actual
behaviour. -/
inductive SimError where
  | ConfigurationError
  | NumericalSingularity
  | BoundsError
deriving DecidableEq

/-- Modelled from the spec: the force evaluator the spec describes in
section 4.1, which is missing from the code — like `compute_acceleration`
but signalling `NumericalSingularity` as soon as some pair's separation
`r` falls below `eps` instead of dividing by the near-zero value. -/
def compute_acceleration_checked (sq : ℚ → ℚ) (eps : ℚ)
    (bodies : List CelestialBody) (i : ℕ) : Except SimError (ℚ × ℚ × ℚ) :=
  let bi := bodies.getD i default
  (List.range bodies.length).foldlM
    (fun acc j =>
      if j = i then Except.ok acc
      else
        let bj := bodies.getD j default
        let dx := bj.x - bi.x
        let dy := bj.y - bi.y
        let dz := bj.z - bi.z
        let r_sq := dx * dx + dy * dy + dz * dz
        let r := sq r_sq
        if r < eps then Except.error SimError.NumericalSingularity
        else
          let r_cubed := r_sq * r
          let factor := GRAV * bj.mass / r_cubed
          Except.ok (acc.1 + factor * dx, acc.2.1 + factor * dy,
                     acc.2.2 + factor * dz))
    (0, 0, 0)

/-- Modelled from the spec: the trajectory query of section 6, which
"fails with BoundsError for an unknown id" — missing from the code, whose
`get_trajectory` returns an empty vector instead. -/
def get_trajectory_checked (s : SolarSystem) (body_index : Int) :
    Except SimError (List ℚ) :=
  if body_index < 0 ∨ (s.bodies.length : Int) ≤ body_index then
    Except.error SimError.BoundsError
  else Except.ok (get_trajectory s body_index)

/-- The spec's kinetic-energy sum (section 4.3):
Σᵢ ½·mass(i)·|velocity(i)|². -/
def kineticSpec (bodies : List CelestialBody) : ℚ :=
  ∑ i ∈ Finset.range bodies.length,
    1/2 * (bodies.getD i default).mass *
      ((bodies.getD i default).vx * (bodies.getD i default).vx +
       (bodies.getD i default).vy * (bodies.getD i default).vy +
       (bodies.getD i default).vz * (bodies.getD i default).vz)

/-- The spec's potential-energy sum (section 4.3): over unique unordered
pairs (i,j), i≠j, each counted exactly once (represented as the ordered
pairs with i < j), of −G·mass(i)·mass(j)/r(i,j). -/
def potentialSpec (sq : ℚ → ℚ) (bodies : List CelestialBody) : ℚ :=
  ∑ p ∈ (Finset.range bodies.length ×ˢ Finset.range bodies.length).filter
      (fun p => p.1 < p.2),
    (-(GRAV * (bodies.getD p.1 default).mass * (bodies.getD p.2 default).mass /
      sq (((bodies.getD p.2 default).x - (bodies.getD p.1 default).x) *
            ((bodies.getD p.2 default).x - (bodies.getD p.1 default).x) +
          ((bodies.getD p.2 default).y - (bodies.getD p.1 default).y) *
            ((bodies.getD p.2 default).y - (bodies.getD p.1 default).y) +
          ((bodies.getD p.2 default).z - (bodies.getD p.1 default).z) *
            ((bodies.getD p.2 default).z - (bodies.getD p.1 default).z))))

/-- The acceleration contribution of body `j` on body `i`:
`G·mass(j)/r³ · (position(j) − position(i))`, with `r³` computed as
`r_sq · sq(r_sq)` exactly as the evaluator does. -/
def acc_term (sq : ℚ → ℚ) (bodies : List CelestialBody) (i j : ℕ) :
    ℚ × ℚ × ℚ :=
  let bi := bodies.getD i default
  let bj := bodies.getD j default
  let dx := bj.x - bi.x
  let dy := bj.y - bi.y
  let dz := bj.z - bi.z
  let r_sq := dx * dx + dy * dy + dz * dz
  let r := sq r_sq
  let r_cubed := r_sq * r
  let factor := GRAV * bj.mass / r_cubed
  (factor * dx, factor * dy, factor * dz)

/-- The per-body contribution list of the force evaluator, in the source's
fixed ascending-index order: for body `i`, the term contributed by each
other body `j`, `j` ranging over `0, …, N−1` with `j ≠ i` in increasing
order. -/
def acc_contributions (sq : ℚ → ℚ) (bodies : List CelestialBody) (i : ℕ) :
    List (ℚ × ℚ × ℚ) :=
  ((List.range bodies.length).filter (fun j => j ≠ i)).map
    (acc_term sq bodies i)

/-- n-fold iteration of `step` with a fixed `dt`: the sequence of states a
run visits, used to state determinism of two runs. -/
def iterate_steps (sq : ℚ → ℚ) (dt : ℚ) (s : SolarSystem) : ℕ → SolarSystem
  | 0 => s
  | n + 1 => step sq (iterate_steps sq dt s n) dt

/-- Driving a body through an arbitrary sequence of trajectory pushes: for
each sample, place the body at that position and call
`add_trajectory_point`, exactly as the sampling loop in
`SolarSystem::simulate` observes the body at successive positions. -/
def push_positions (b : CelestialBody) (ps : List (ℚ × ℚ × ℚ)) :
    CelestialBody :=
  ps.foldl
    (fun c p => add_trajectory_point { c with x := p.1, y := p.2.1, z := p.2.2 })
    b

/-- A concrete instantiation of the square-root parameter used only by
witnesses and counterexamples (it agrees with the true square root at the
fixed points 0 and 1, the only values the witnesses exercise).  Every
theorem below is universally quantified over the square-root function, so
nothing depends on this particular choice. -/
def sqW : ℚ → ℚ := fun q => q

/-- Concrete two-body configuration used by witnesses: unit mass at the
origin, mass 2 at (1,0,0). -/
def bodyP : CelestialBody := { mass := 1, trajectory_max_points := 2 }

/-- Second body of the witness configuration. -/
def bodyQ : CelestialBody := { mass := 2, x := 1 }

/-- Witness system holding `bodyP` and `bodyQ`. -/
def sysPQ : SolarSystem := { bodies := [bodyP, bodyQ] }

/-- A second witness system with the same bodies as `sysPQ` but different
clock and counter, used to instantiate the determinism statement. -/
def sysPQb : SolarSystem :=
  { bodies := [bodyP, bodyQ], simulation_time := 42, step_count := 7 }

/-- Witness system with two exactly coincident bodies at the origin. -/
def sysCo : SolarSystem := { bodies := [{ mass := 1 }, { mass := 1 }] }

/-- Witness system with a single body, used for batch-run witnesses. -/
def sysOne : SolarSystem := { bodies := [{ mass := 1 }] }

/-- Witness system whose single body carries a populated trajectory
buffer. -/
def sysT : SolarSystem :=
  { bodies := [{ mass := 1, trajectory_x := [1, 2], trajectory_y := [3, 4],
                 trajectory_z := [5, 6], trajectory_max_points := 5 }] }

/-! ### General list helper lemmas -/

/-- Indexing a mapped list inside its range. -/
lemma getD_map_lt (f : CelestialBody → CelestialBody) (l : List CelestialBody)
    (i : ℕ) (h : i < l.length) :
    (l.map f).getD i default = f (l.getD i default) := by
  rw [List.getD_eq_getElem?_getD, List.getD_eq_getElem?_getD,
    List.getElem?_map, List.getElem?_eq_getElem h]
  rfl

/-- Indexing a list built by mapping over `List.range`. -/
lemma range_map_getD {α : Type} (g : ℕ → α) (d : α) (n i : ℕ) (h : i < n) :
    ((List.range n).map g).getD i d = g i := by
  rw [List.getD_eq_getElem?_getD, List.getElem?_map,
    List.getElem?_eq_getElem (by simpa using h)]
  simp [List.getElem_range]

/-- Two folds agree when their step functions agree on the list's
elements. -/
lemma foldl_ext_mem {α β : Type} (f g : β → α → β) :
    ∀ (l : List α), (∀ b a, a ∈ l → f b a = g b a) →
      ∀ init, l.foldl f init = l.foldl g init := by
  intro l
  induction l with
  | nil => intro _ _; rfl
  | cons a l ih =>
    intro h init
    simp only [List.foldl_cons]
    rw [h init a (List.mem_cons_self a l)]
    exact ih (fun b x hx => h b x (List.mem_cons_of_mem a hx)) _

/-- Folding addition of `f` over a list is adding the sum of the mapped
list. -/
lemma foldl_add_map (f : ℕ → ℚ) :
    ∀ (l : List ℕ) (a : ℚ), l.foldl (fun k i => k + f i) a = a + (l.map f).sum := by
  intro l
  induction l with
  | nil => intro a; simp
  | cons j l ih => intro a; simp [List.foldl_cons, ih, add_assoc]

/-- Folding subtraction of `f` over a list is subtracting the sum of the
mapped list. -/
lemma foldl_sub_map (f : ℕ → ℚ) :
    ∀ (l : List ℕ) (a : ℚ), l.foldl (fun k i => k - f i) a = a - (l.map f).sum := by
  intro l
  induction l with
  | nil => intro a; simp
  | cons j l ih => intro a; simp [List.foldl_cons, ih, sub_sub]

/-- Summing a function mapped over `List.range` is the `Finset.range`
sum. -/
lemma list_range_map_sum (f : ℕ → ℚ) :
    ∀ (n : ℕ), ((List.range n).map f).sum = ∑ i ∈ Finset.range n, f i := by
  intro n
  induction n with
  | zero => simp
  | succ n ih => rw [List.range_succ, Finset.sum_range_succ]; simp [ih]

/-- Summing a function mapped over `List.range' s k` is the
`Finset.Ico s (s+k)` sum. -/
lemma list_range'_map_sum (f : ℕ → ℚ) (s k : ℕ) :
    ((List.range' s k).map f).sum = ∑ j ∈ Finset.Ico s (s + k), f j := by
  rw [List.range'_eq_map_range, Finset.sum_Ico_eq_sum_range]
  simp only [Nat.add_sub_cancel_left, List.map_map]
  induction k with
  | zero => simp
  | succ k ih => rw [List.range_succ, Finset.sum_range_succ]; simp_all

/-- A componentwise-additive fold of triples that skips index `i`
computes the three componentwise sums over the list with `i` filtered
out. -/
lemma foldl_skip_add3 (i : ℕ) (g : ℕ → ℚ × ℚ × ℚ) :
    ∀ (l : List ℕ) (acc : ℚ × ℚ × ℚ),
      l.foldl (fun acc j => if j = i then acc
          else (acc.1 + (g j).1, acc.2.1 + (g j).2.1, acc.2.2 + (g j).2.2)) acc
        = (acc.1 + (((l.filter (fun j => j ≠ i)).map g).map (fun t => t.1)).sum,
           acc.2.1 + (((l.filter (fun j => j ≠ i)).map g).map (fun t => t.2.1)).sum,
           acc.2.2 + (((l.filter (fun j => j ≠ i)).map g).map (fun t => t.2.2)).sum) := by
  intro l
  induction l with
  | nil => intro acc; simp
  | cons a l ih =>
    intro acc
    by_cases ha : a = i
    · simp only [List.foldl_cons, if_pos ha]
      have hf : List.filter (fun j => decide (j ≠ i)) (a :: l)
          = List.filter (fun j => decide (j ≠ i)) l := by
        simp [List.filter_cons, ha]
      rw [hf]
      exact ih acc
    · simp only [List.foldl_cons, if_neg ha]
      have hf : List.filter (fun j => decide (j ≠ i)) (a :: l)
          = a :: List.filter (fun j => decide (j ≠ i)) l := by
        simp [List.filter_cons, ha]
      rw [hf, ih]
      simp only [List.map_cons, List.sum_cons]
      exact Prod.ext (by ring) (Prod.ext (by ring) (by ring))

/-- A fold whose two accumulator components evolve independently is the
pair of the two component folds. -/
lemma foldl_pair_split (F G : ℚ → ℕ → ℚ) :
    ∀ (l : List ℕ) (a b : ℚ),
      l.foldl (fun kp i => (F kp.1 i, G kp.2 i)) (a, b)
        = (l.foldl F a, l.foldl G b) := by
  intro l
  induction l with
  | nil => intro a b; rfl
  | cons j l ih => intro a b; simp [List.foldl_cons, ih]

/-- Summing over the ordered pairs (i,j) with i < j below n, as a filtered
product, equals the nested sum with the inner index running over
`Ico (i+1) n`. -/
lemma pairs_sum (n : ℕ) (g : ℕ × ℕ → ℚ) :
    ∑ p ∈ (Finset.range n ×ˢ Finset.range n).filter (fun p => p.1 < p.2), g p
      = ∑ i ∈ Finset.range n, ∑ j ∈ Finset.Ico (i + 1) n, g (i, j) := by
  rw [Finset.sum_filter, Finset.sum_product]
  refine Finset.sum_congr rfl (fun i _ => ?_)
  rw [← Finset.sum_filter]
  refine Finset.sum_congr ?_ (fun j _ => rfl)
  ext j
  simp only [Finset.mem_filter, Finset.mem_range, Finset.mem_Ico]
  omega

/-! ### Structure lemmas about the embedded operations -/

/-- `compute_all_accelerations` preserves the body count. -/
lemma compute_all_length (sq : ℚ → ℚ) (l : List CelestialBody) :
    (compute_all_accelerations sq l).length = l.length := by
  simp [compute_all_accelerations]

/-- The i-th body after `compute_all_accelerations`: the old body with
only the acceleration triple replaced. -/
lemma compute_all_getD (sq : ℚ → ℚ) (l : List CelestialBody) (i : ℕ)
    (h : i < l.length) :
    (compute_all_accelerations sq l).getD i default
      = { l.getD i default with
          ax := (compute_acceleration sq l i).1,
          ay := (compute_acceleration sq l i).2.1,
          az := (compute_acceleration sq l i).2.2 } := by
  unfold compute_all_accelerations
  exact range_map_getD _ _ _ _ h

/-- `step` preserves the body count. -/
lemma step_bodies_length (sq : ℚ → ℚ) (s : SolarSystem) (dt : ℚ) :
    (step sq s dt).bodies.length = s.bodies.length := by
  simp [step, compute_all_accelerations]

/-- `run_steps` unfolded one iteration. -/
lemma run_steps_cons (sq : ℚ → ℚ) (dt : ℚ) (s : SolarSystem) (i : ℕ)
    (l : List ℕ) :
    run_steps sq dt s (i :: l)
      = run_steps sq dt
          (if i % 10 = 0 then
            { step sq s dt with
              bodies := (step sq s dt).bodies.map add_trajectory_point }
          else step sq s dt) l := by
  unfold run_steps
  simp only [List.foldl_cons]

/-- `run_steps` never touches the conservation baseline. -/
lemma run_steps_initial_energy (sq : ℚ → ℚ) (dt : ℚ) :
    ∀ (idxs : List ℕ) (s : SolarSystem),
      (run_steps sq dt s idxs).initial_energy = s.initial_energy := by
  intro idxs
  induction idxs with
  | nil => intro s; rfl
  | cons i l ih =>
    intro s
    rw [run_steps_cons, ih]
    by_cases h : i % 10 = 0 <;> simp [h, step]

/-- `run_steps` advances the step counter by one per iteration and the
clock by `dt` per iteration. -/
lemma run_steps_count_time (sq : ℚ → ℚ) (dt : ℚ) :
    ∀ (idxs : List ℕ) (s : SolarSystem),
      (run_steps sq dt s idxs).step_count = s.step_count + idxs.length ∧
      (run_steps sq dt s idxs).simulation_time
        = s.simulation_time + idxs.length * dt := by
  intro idxs
  induction idxs with
  | nil => intro s; simp [run_steps]
  | cons i l ih =>
    intro s
    rw [run_steps_cons]
    rcases ih (if i % 10 = 0 then
        { step sq s dt with
          bodies := (step sq s dt).bodies.map add_trajectory_point }
      else step sq s dt) with ⟨hc, ht⟩
    constructor
    · rw [hc]
      by_cases h : i % 10 = 0 <;> simp [h, step] <;> push_cast <;> ring
    · rw [ht]
      by_cases h : i % 10 = 0 <;> simp [h, step] <;> push_cast <;> ring

/-! ### C6 -/

/-- C6 (amended): `step` performs no validation of `dt` whatsoever: for
every `dt`, including `dt ≤ 0`, it runs the velocity-Verlet update,
increments the step counter and advances the clock by `dt`; no
`ConfigurationError` exists in the code. -/
theorem step_no_dt_validation (sq : ℚ → ℚ) (s : SolarSystem) (dt : ℚ) :
    (step sq s dt).step_count = s.step_count + 1 ∧
    (step sq s dt).simulation_time = s.simulation_time + dt ∧
    (step sq s dt).bodies.length = s.bodies.length :=
  ⟨rfl, rfl, step_bodies_length sq s dt⟩

/-- C6 counterexample: at `dt = 0 ≤ 0` the claim demands a
`ConfigurationError` with the state unchanged, but the code's `step`
succeeds and increments the step counter. -/
theorem step_nonpositive_dt_counterexample :
    (0 : ℚ) ≤ 0 ∧ (step sqW sysPQ 0).step_count = 1 ∧ sysPQ.step_count = 0 :=
  ⟨le_refl 0, rfl, rfl⟩

/-! ### C7 -/

/-- C7 (amended): for an out-of-range body index the trajectory query of
the code returns the empty sequence — it succeeds with a default value
instead of failing; the spec's `BoundsError` behaviour (modelled by
`get_trajectory_checked`) is what the claim describes, and the two
disagree on every unknown id. -/
theorem get_trajectory_unknown_id (s : SolarSystem) (idx : Int)
    (h : idx < 0 ∨ (s.bodies.length : Int) ≤ idx) :
    get_trajectory s idx = [] ∧
    get_trajectory_checked s idx = Except.error SimError.BoundsError := by
  constructor
  · unfold get_trajectory
    rw [if_pos h]
  · unfold get_trajectory_checked
    rw [if_pos h]

/-- Witness for C7's amended theorem at the concrete unknown index 5 of
the two-body system. -/
theorem get_trajectory_unknown_id_witness :
    ((5 : Int) < 0 ∨ (sysPQ.bodies.length : Int) ≤ 5) ∧
    get_trajectory sysPQ 5 = [] :=
  ⟨Or.inr (by decide), (get_trajectory_unknown_id sysPQ 5 (Or.inr (by decide))).1⟩

/-- C7 counterexample: querying the unknown id 5 succeeds with the empty
default value rather than failing with `BoundsError`. -/
theorem get_trajectory_unknown_id_counterexample :
    get_trajectory sysPQ 5 = [] ∧
    get_trajectory_checked sysPQ 5 = Except.error SimError.BoundsError :=
  ⟨by decide, rfl⟩

/-! ### C9 -/

/-- C9: direct `step` calls never touch the cached `total_energy` and
`initial_energy` fields, so `get_total_energy` and `get_energy_error`
keep reporting the values cached at the last setup or batch run;
`simulate` recomputes the cached total energy exactly once, at the end,
from its final body state, and never touches the baseline. -/
theorem energy_cache_frame (sq : ℚ → ℚ) (s : SolarSystem) (dt duration : ℚ) :
    (step sq s dt).total_energy = s.total_energy ∧
    (step sq s dt).initial_energy = s.initial_energy ∧
    get_total_energy (step sq s dt) = get_total_energy s ∧
    get_energy_error (step sq s dt) = get_energy_error s ∧
    get_total_energy (simulate sq s duration dt)
      = calculate_total_energy sq (simulate sq s duration dt).bodies ∧
    (simulate sq s duration dt).initial_energy = s.initial_energy := by
  refine ⟨rfl, rfl, rfl, rfl, rfl, ?_⟩
  unfold simulate
  exact run_steps_initial_energy sq dt _ s

/-! ### C3 -/

/-- C3: the energy diagnostic is exactly the spec's formula — the sum of
½·m·|v|² over all bodies plus the sum of −G·mᵢ·mⱼ/r(i,j) over the
unordered pairs, each pair counted exactly once.  The embedding is a pure
function of the body list, matching the fact that the C++ routine reads
but never writes body state. -/
theorem total_energy_spec (sq : ℚ → ℚ) (bodies : List CelestialBody) :
    calculate_total_energy sq bodies
      = kineticSpec bodies + potentialSpec sq bodies := by
  simp only [calculate_total_energy]
  simp only [foldl_sub_map]
  rw [foldl_pair_split
    (fun k i => k + 1/2 * (bodies.getD i default).mass *
      ((bodies.getD i default).vx * (bodies.getD i default).vx +
       (bodies.getD i default).vy * (bodies.getD i default).vy +
       (bodies.getD i default).vz * (bodies.getD i default).vz))
    (fun p i => p -
      ((List.range' (i + 1) (bodies.length - (i + 1))).map (fun j =>
        GRAV * (bodies.getD i default).mass * (bodies.getD j default).mass /
          sq (((bodies.getD j default).x - (bodies.getD i default).x) *
                ((bodies.getD j default).x - (bodies.getD i default).x) +
              ((bodies.getD j default).y - (bodies.getD i default).y) *
                ((bodies.getD j default).y - (bodies.getD i default).y) +
              ((bodies.getD j default).z - (bodies.getD i default).z) *
                ((bodies.getD j default).z - (bodies.getD i default).z)))).sum)]
  rw [foldl_add_map, foldl_sub_map, list_range_map_sum, list_range_map_sum]
  have hS : ∀ i ∈ Finset.range bodies.length,
      ((List.range' (i + 1) (bodies.length - (i + 1))).map (fun j =>
        GRAV * (bodies.getD i default).mass * (bodies.getD j default).mass /
          sq (((bodies.getD j default).x - (bodies.getD i default).x) *
                ((bodies.getD j default).x - (bodies.getD i default).x) +
              ((bodies.getD j default).y - (bodies.getD i default).y) *
                ((bodies.getD j default).y - (bodies.getD i default).y) +
              ((bodies.getD j default).z - (bodies.getD i default).z) *
                ((bodies.getD j default).z - (bodies.getD i default).z)))).sum
        = ∑ j ∈ Finset.Ico (i + 1) bodies.length,
            GRAV * (bodies.getD i default).mass * (bodies.getD j default).mass /
              sq (((bodies.getD j default).x - (bodies.getD i default).x) *
                    ((bodies.getD j default).x - (bodies.getD i default).x) +
                  ((bodies.getD j default).y - (bodies.getD i default).y) *
                    ((bodies.getD j default).y - (bodies.getD i default).y) +
                  ((bodies.getD j default).z - (bodies.getD i default).z) *
                    ((bodies.getD j default).z - (bodies.getD i default).z)) := by
    intro i hi
    rw [list_range'_map_sum]
    have : i + 1 + (bodies.length - (i + 1)) = bodies.length := by
      simp only [Finset.mem_range] at hi
      omega
    rw [this]
  rw [Finset.sum_congr rfl hS]
  unfold kineticSpec potentialSpec
  rw [pairs_sum]
  simp only [Finset.sum_neg_distrib]
  ring

/-! ### C8 -/

/-- The force evaluator's fold is the componentwise ordered sum of the
per-pair contribution list. -/
lemma compute_acceleration_eq_sums (sq : ℚ → ℚ) (bodies : List CelestialBody)
    (i : ℕ) :
    compute_acceleration sq bodies i
      = (((acc_contributions sq bodies i).map (fun t => t.1)).sum,
         ((acc_contributions sq bodies i).map (fun t => t.2.1)).sum,
         ((acc_contributions sq bodies i).map (fun t => t.2.2)).sum) := by
  have h : compute_acceleration sq bodies i
      = (List.range bodies.length).foldl
          (fun acc j => if j = i then acc
            else (acc.1 + (acc_term sq bodies i j).1,
                  acc.2.1 + (acc_term sq bodies i j).2.1,
                  acc.2.2 + (acc_term sq bodies i j).2.2))
          (0, 0, 0) := rfl
  rw [h, foldl_skip_add3]
  unfold acc_contributions
  simp

/-- `step` reads only the body list of the state when producing the new
body list. -/
lemma step_bodies_congr (sq : ℚ → ℚ) (dt : ℚ) (s1 s2 : SolarSystem)
    (h : s1.bodies = s2.bodies) :
    (step sq s1 dt).bodies = (step sq s2 dt).bodies := by
  simp only [step]
  rw [h]

/-- C8: the evaluator sums the contributions of the other bodies in the
fixed ascending body-index order — its result is the componentwise sum of
the `acc_contributions` list, whose index list is strictly increasing —
and consequently two runs from identical body configurations, stepped with
the same `dt`, produce identical body states (hence identical position
and velocity sequences) at every step. -/
theorem force_ascending_order_determinism (sq : ℚ → ℚ)
    (bodies : List CelestialBody) (i : ℕ) :
    compute_acceleration sq bodies i
      = (((acc_contributions sq bodies i).map (fun t => t.1)).sum,
         ((acc_contributions sq bodies i).map (fun t => t.2.1)).sum,
         ((acc_contributions sq bodies i).map (fun t => t.2.2)).sum) ∧
    ((List.range bodies.length).filter (fun j => j ≠ i)).Pairwise (· < ·) ∧
    ∀ (s1 s2 : SolarSystem) (dt : ℚ) (n : ℕ), s1.bodies = s2.bodies →
      (iterate_steps sq dt s1 n).bodies = (iterate_steps sq dt s2 n).bodies := by
  refine ⟨compute_acceleration_eq_sums sq bodies i,
    List.Pairwise.filter _ (List.pairwise_lt_range _), ?_⟩
  intro s1 s2 dt n h
  induction n with
  | zero => exact h
  | succ n ih => exact step_bodies_congr sq dt _ _ ih

/-- Witness for C8: the determinism conclusion applied to two concrete
systems that share a body list but differ in clock and counter. -/
theorem force_ascending_order_determinism_witness :
    sysPQ.bodies = sysPQb.bodies ∧
    (iterate_steps sqW 1 sysPQ 2).bodies = (iterate_steps sqW 1 sysPQb 2).bodies :=
  ⟨rfl,
    (force_ascending_order_determinism sqW sysPQ.bodies 0).2.2 sysPQ sysPQb 1 2 rfl⟩

/-! ### C1 -/

/-- `verlet_half` preserves the body count. -/
lemma verlet_half_length (s : SolarSystem) (dt : ℚ) :
    (verlet_half s dt).length = s.bodies.length := by
  simp [verlet_half]

/-- The body list produced by `step`, written through `verlet_half`. -/
lemma step_bodies_def (sq : ℚ → ℚ) (s : SolarSystem) (dt : ℚ) :
    (step sq s dt).bodies
      = (compute_all_accelerations sq (verlet_half s dt)).map (fun b =>
          { b with vx := b.vx + 1/2 * (b.ax_old + b.ax) * dt,
                   vy := b.vy + 1/2 * (b.ay_old + b.ay) * dt,
                   vz := b.vz + 1/2 * (b.az_old + b.az) * dt }) := rfl

/-- The i-th body of `verlet_half`: old accelerations saved and position
advanced, everything else untouched. -/
lemma verlet_half_getD (s : SolarSystem) (dt : ℚ) (i : ℕ)
    (h : i < s.bodies.length) :
    (verlet_half s dt).getD i default
      = { s.bodies.getD i default with
          ax_old := (s.bodies.getD i default).ax,
          ay_old := (s.bodies.getD i default).ay,
          az_old := (s.bodies.getD i default).az,
          x := (s.bodies.getD i default).x
            + (s.bodies.getD i default).vx * dt
            + 1/2 * (s.bodies.getD i default).ax * dt * dt,
          y := (s.bodies.getD i default).y
            + (s.bodies.getD i default).vy * dt
            + 1/2 * (s.bodies.getD i default).ay * dt * dt,
          z := (s.bodies.getD i default).z
            + (s.bodies.getD i default).vz * dt
            + 1/2 * (s.bodies.getD i default).az * dt * dt } := by
  unfold verlet_half
  rw [getD_map_lt _ _ _ (by simpa using h), getD_map_lt _ _ _ h]

/-- The i-th body of the post-step list, fully explicit over
`verlet_half`. -/
lemma step_getD (sq : ℚ → ℚ) (s : SolarSystem) (dt : ℚ) (i : ℕ)
    (h : i < s.bodies.length) :
    (step sq s dt).bodies.getD i default
      = { (verlet_half s dt).getD i default with
          ax := (compute_acceleration sq (verlet_half s dt) i).1,
          ay := (compute_acceleration sq (verlet_half s dt) i).2.1,
          az := (compute_acceleration sq (verlet_half s dt) i).2.2,
          vx := ((verlet_half s dt).getD i default).vx
            + 1/2 * (((verlet_half s dt).getD i default).ax_old
              + (compute_acceleration sq (verlet_half s dt) i).1) * dt,
          vy := ((verlet_half s dt).getD i default).vy
            + 1/2 * (((verlet_half s dt).getD i default).ay_old
              + (compute_acceleration sq (verlet_half s dt) i).2.1) * dt,
          vz := ((verlet_half s dt).getD i default).vz
            + 1/2 * (((verlet_half s dt).getD i default).az_old
              + (compute_acceleration sq (verlet_half s dt) i).2.2) * dt } := by
  rw [step_bodies_def]
  rw [getD_map_lt _ _ _
    (by rw [compute_all_length, verlet_half_length]; exact h)]
  rw [compute_all_getD _ _ _ (by rw [verlet_half_length]; exact h)]

/-- The evaluator depends only on the positions and masses of the body
list. -/
lemma compute_acceleration_congr (sq : ℚ → ℚ) (i : ℕ)
    (l1 l2 : List CelestialBody) (hlen : l1.length = l2.length)
    (hf : ∀ j, j < l1.length →
      (l1.getD j default).x = (l2.getD j default).x ∧
      (l1.getD j default).y = (l2.getD j default).y ∧
      (l1.getD j default).z = (l2.getD j default).z ∧
      (l1.getD j default).mass = (l2.getD j default).mass)
    (hi : i < l1.length) :
    compute_acceleration sq l1 i = compute_acceleration sq l2 i := by
  simp only [compute_acceleration]
  rw [← hlen]
  refine foldl_ext_mem _ _ (List.range l1.length) ?_ (0, 0, 0)
  intro b j hj
  have hjl : j < l1.length := List.mem_range.mp hj
  rcases hf j hjl with ⟨hx, hy, hz, hm⟩
  rcases hf i hi with ⟨hix, hiy, hiz, _⟩
  by_cases hji : j = i
  · simp [hji]
  · simp only [if_neg hji]
    rw [hx, hy, hz, hm, hix, hiy, hiz]

/-- Every field of the post-step body that the evaluator reads agrees with
the half-updated list. -/
lemma step_fields_match (sq : ℚ → ℚ) (s : SolarSystem) (dt : ℚ) :
    ∀ j, j < (verlet_half s dt).length →
      ((verlet_half s dt).getD j default).x
        = ((step sq s dt).bodies.getD j default).x ∧
      ((verlet_half s dt).getD j default).y
        = ((step sq s dt).bodies.getD j default).y ∧
      ((verlet_half s dt).getD j default).z
        = ((step sq s dt).bodies.getD j default).z ∧
      ((verlet_half s dt).getD j default).mass
        = ((step sq s dt).bodies.getD j default).mass := by
  intro j hj
  rw [step_getD sq s dt j (by rw [← verlet_half_length s dt]; exact hj)]
  exact ⟨rfl, rfl, rfl, rfl⟩

/-- The evaluator applied to the final post-step list gives the same
accelerations as applied to the half-updated list: the two agree on every
position and mass. -/
lemma compute_acceleration_step (sq : ℚ → ℚ) (s : SolarSystem) (dt : ℚ)
    (i : ℕ) (h : i < s.bodies.length) :
    compute_acceleration sq (verlet_half s dt) i
      = compute_acceleration sq (step sq s dt).bodies i := by
  refine compute_acceleration_congr sq i _ _ ?_ (step_fields_match sq s dt) ?_
  · rw [verlet_half_length, step_bodies_length]
  · rw [verlet_half_length]; exact h

/-- C1: a single `step(dt)` from any state performs exactly the claimed
velocity-Verlet sequence for every body — the pre-step acceleration is
saved as the previous acceleration, the position is advanced with the
pre-step velocity and acceleration, the new acceleration is the force
evaluator applied to the updated positions, and the velocity is advanced
with the average of previous and new acceleration — after which the clock
gains `dt` and the counter gains 1. -/
theorem step_velocity_verlet (sq : ℚ → ℚ) (s : SolarSystem) (dt : ℚ) (i : ℕ)
    (hi : i < s.bodies.length) :
    (step sq s dt).simulation_time = s.simulation_time + dt ∧
    (step sq s dt).step_count = s.step_count + 1 ∧
    (step sq s dt).bodies.length = s.bodies.length ∧
    ((step sq s dt).bodies.getD i default).ax_old
      = (s.bodies.getD i default).ax ∧
    ((step sq s dt).bodies.getD i default).ay_old
      = (s.bodies.getD i default).ay ∧
    ((step sq s dt).bodies.getD i default).az_old
      = (s.bodies.getD i default).az ∧
    ((step sq s dt).bodies.getD i default).x
      = (s.bodies.getD i default).x + (s.bodies.getD i default).vx * dt
        + 1/2 * (s.bodies.getD i default).ax * dt * dt ∧
    ((step sq s dt).bodies.getD i default).y
      = (s.bodies.getD i default).y + (s.bodies.getD i default).vy * dt
        + 1/2 * (s.bodies.getD i default).ay * dt * dt ∧
    ((step sq s dt).bodies.getD i default).z
      = (s.bodies.getD i default).z + (s.bodies.getD i default).vz * dt
        + 1/2 * (s.bodies.getD i default).az * dt * dt ∧
    (((step sq s dt).bodies.getD i default).ax,
     ((step sq s dt).bodies.getD i default).ay,
     ((step sq s dt).bodies.getD i default).az)
      = compute_acceleration sq (step sq s dt).bodies i ∧
    ((step sq s dt).bodies.getD i default).vx
      = (s.bodies.getD i default).vx
        + 1/2 * ((s.bodies.getD i default).ax
          + ((step sq s dt).bodies.getD i default).ax) * dt ∧
    ((step sq s dt).bodies.getD i default).vy
      = (s.bodies.getD i default).vy
        + 1/2 * ((s.bodies.getD i default).ay
          + ((step sq s dt).bodies.getD i default).ay) * dt ∧
    ((step sq s dt).bodies.getD i default).vz
      = (s.bodies.getD i default).vz
        + 1/2 * ((s.bodies.getD i default).az
          + ((step sq s dt).bodies.getD i default).az) * dt := by
  rw [step_getD sq s dt i hi, verlet_half_getD s dt i hi,
    ← compute_acceleration_step sq s dt i hi]
  exact ⟨rfl, rfl, step_bodies_length sq s dt, rfl, rfl, rfl, rfl, rfl, rfl,
    rfl, rfl, rfl, rfl⟩

/-- Witness for C1 at the concrete two-body system, body 0, `dt = 1`. -/
theorem step_velocity_verlet_witness :
    0 < sysPQ.bodies.length ∧
    (step sqW sysPQ 1).step_count = sysPQ.step_count + 1 :=
  ⟨by decide, (step_velocity_verlet sqW sysPQ 1 0 (by decide)).2.1⟩

/-! ### C2 -/

/-- A monadic fold over `Except` whose only possible error is
`NumericalSingularity` returns that error whenever some listed element
forces it. -/
lemma foldlM_reaches_error {α : Type}
    (f : ℚ × ℚ × ℚ → α → Except SimError (ℚ × ℚ × ℚ))
    (herr : ∀ acc j e, f acc j = Except.error e → e = SimError.NumericalSingularity)
    (j0 : α) (hj0 : ∀ acc, f acc j0 = Except.error SimError.NumericalSingularity) :
    ∀ (l : List α) (acc : ℚ × ℚ × ℚ), j0 ∈ l →
      l.foldlM f acc = Except.error SimError.NumericalSingularity := by
  intro l
  induction l with
  | nil => intro acc h; cases h
  | cons a l ih =>
    intro acc hmem
    rw [List.foldlM_cons]
    cases hfa : f acc a with
    | error e =>
      have he := herr acc a e hfa
      subst he
      rfl
    | ok acc2 =>
      rcases List.mem_cons.mp hmem with h1 | h2
      · subst h1
        rw [hj0 acc] at hfa
        cases hfa
      · show l.foldlM f acc2 = Except.error SimError.NumericalSingularity
        exact ih acc2 h2

/-- The spec-modelled checked evaluator signals `NumericalSingularity`
whenever the configuration holds a pair of coincident bodies (given a
square root fixing 0 and any positive epsilon). -/
lemma checked_coincident_error (sq : ℚ → ℚ) (eps : ℚ)
    (bodies : List CelestialBody) (i j : ℕ)
    (hj : j < bodies.length) (hji : j ≠ i)
    (hx : (bodies.getD j default).x = (bodies.getD i default).x)
    (hy : (bodies.getD j default).y = (bodies.getD i default).y)
    (hz : (bodies.getD j default).z = (bodies.getD i default).z)
    (hsq : sq 0 = 0) (heps : 0 < eps) :
    compute_acceleration_checked sq eps bodies i
      = Except.error SimError.NumericalSingularity := by
  simp only [compute_acceleration_checked]
  refine foldlM_reaches_error _ ?_ j ?_ _ _ (List.mem_range.mpr hj)
  · intro acc j' e hfe
    by_cases hj' : j' = i
    · rw [if_pos hj'] at hfe; cases hfe
    · rw [if_neg hj'] at hfe
      by_cases hlt : sq (((bodies.getD j' default).x - (bodies.getD i default).x) *
            ((bodies.getD j' default).x - (bodies.getD i default).x) +
          ((bodies.getD j' default).y - (bodies.getD i default).y) *
            ((bodies.getD j' default).y - (bodies.getD i default).y) +
          ((bodies.getD j' default).z - (bodies.getD i default).z) *
            ((bodies.getD j' default).z - (bodies.getD i default).z)) < eps
      · rw [if_pos hlt] at hfe
        injection hfe with h
        exact h.symm
      · rw [if_neg hlt] at hfe; cases hfe
  · intro acc
    rw [if_neg hji, hx, hy, hz]
    simp only [sub_self, mul_zero, add_zero, zero_mul, zero_add]
    rw [hsq, if_pos heps]

/-- C2 (amended): the code's force evaluator contains no
minimum-separation check and never signals: on a configuration with two
exactly coincident bodies it still just computes the ordered contribution
sums (the coincident pair contributing `(G·m/(0·sq 0))·0`, which the
rational embedding evaluates to a plain value and IEEE doubles to
non-finite values), whereas the checked evaluator described by the spec
signals `NumericalSingularity` on the same input. -/
theorem singularity_unchecked (sq : ℚ → ℚ) (eps : ℚ)
    (bodies : List CelestialBody) (i j : ℕ)
    (hj : j < bodies.length) (hji : j ≠ i)
    (hx : (bodies.getD j default).x = (bodies.getD i default).x)
    (hy : (bodies.getD j default).y = (bodies.getD i default).y)
    (hz : (bodies.getD j default).z = (bodies.getD i default).z)
    (hsq : sq 0 = 0) (heps : 0 < eps) :
    compute_acceleration_checked sq eps bodies i
      = Except.error SimError.NumericalSingularity ∧
    compute_acceleration sq bodies i
      = (((acc_contributions sq bodies i).map (fun t => t.1)).sum,
         ((acc_contributions sq bodies i).map (fun t => t.2.1)).sum,
         ((acc_contributions sq bodies i).map (fun t => t.2.2)).sum) :=
  ⟨checked_coincident_error sq eps bodies i j hj hji hx hy hz hsq heps,
   compute_acceleration_eq_sums sq bodies i⟩

/-- Witness for C2's amended theorem: the coincident two-body system,
`eps = 1`, the square-root stand-in fixing 0. -/
theorem singularity_unchecked_witness :
    1 < sysCo.bodies.length ∧ (1 : ℕ) ≠ 0 ∧
    compute_acceleration_checked sqW 1 sysCo.bodies 0
      = Except.error SimError.NumericalSingularity :=
  ⟨by decide, by decide,
    (singularity_unchecked sqW 1 sysCo.bodies 0 1 (by decide) (by decide)
      rfl rfl rfl rfl (by decide)).1⟩

/-- C2 counterexample: with two bodies placed at identical positions the
code's evaluator does not signal anything — it returns the plain value
(0,0,0) — while the claim demands a `NumericalSingularity` condition
(exhibited by the spec-modelled checked evaluator on the same input). -/
theorem singularity_counterexample :
    compute_acceleration sqW sysCo.bodies 0 = (0, 0, 0) ∧
    compute_acceleration_checked sqW 1 sysCo.bodies 0
      = Except.error SimError.NumericalSingularity := by
  constructor
  · rw [compute_acceleration_eq_sums]
    rw [show acc_contributions sqW sysCo.bodies 0
        = [acc_term sqW sysCo.bodies 0 1] from rfl]
    simp only [List.map_cons, List.map_nil, List.sum_cons, List.sum_nil]
    norm_num [acc_term, sysCo, List.getD]
  · exact checked_coincident_error sqW 1 sysCo.bodies 0 1 (by decide)
      (by decide) rfl rfl rfl rfl (by decide)

/-! ### C5 -/

/-- `add_trajectory_point` acts as `push1` on each coordinate buffer when
the three buffers have equal length (which every reachable body state
satisfies), and leaves the capacity untouched. -/
lemma add_trajectory_components (c : CelestialBody)
    (hy : c.trajectory_y.length = c.trajectory_x.length)
    (hz : c.trajectory_z.length = c.trajectory_x.length) :
    (add_trajectory_point c).trajectory_x
        = push1 c.trajectory_max_points c.trajectory_x c.x ∧
    (add_trajectory_point c).trajectory_y
        = push1 c.trajectory_max_points c.trajectory_y c.y ∧
    (add_trajectory_point c).trajectory_z
        = push1 c.trajectory_max_points c.trajectory_z c.z ∧
    (add_trajectory_point c).trajectory_max_points
        = c.trajectory_max_points := by
  unfold add_trajectory_point push1
  by_cases h : c.trajectory_max_points < (c.trajectory_x ++ [c.x]).length
  · rw [if_pos h]
    refine ⟨?_, ?_, ?_, rfl⟩
    · rw [if_pos h]
    · rw [if_pos (by
        simp only [List.length_append, List.length_singleton, hy] at h ⊢
        omega)]
    · rw [if_pos (by
        simp only [List.length_append, List.length_singleton, hz] at h ⊢
        omega)]
  · rw [if_neg h]
    refine ⟨?_, ?_, ?_, rfl⟩
    · rw [if_neg h]
    · rw [if_neg (by
        simp only [List.length_append, List.length_singleton, hy] at h ⊢
        omega)]
    · rw [if_neg (by
        simp only [List.length_append, List.length_singleton, hz] at h ⊢
        omega)]

/-- `push1` changes the length of two equal-length lists identically. -/
lemma push1_length_eq (cap : ℕ) (l1 l2 : List ℚ) (v w : ℚ)
    (h : l2.length = l1.length) :
    (push1 cap l2 w).length = (push1 cap l1 v).length := by
  unfold push1
  simp only [List.length_append, List.length_singleton, h]
  split <;> simp [h]

/-- Pushing a sequence of positions drives each coordinate buffer through
the corresponding `push1` fold and preserves the capacity. -/
lemma push_positions_components :
    ∀ (ps : List (ℚ × ℚ × ℚ)) (c : CelestialBody),
      c.trajectory_y.length = c.trajectory_x.length →
      c.trajectory_z.length = c.trajectory_x.length →
      (push_positions c ps).trajectory_x
          = (ps.map (fun p => p.1)).foldl (push1 c.trajectory_max_points)
              c.trajectory_x ∧
      (push_positions c ps).trajectory_y
          = (ps.map (fun p => p.2.1)).foldl (push1 c.trajectory_max_points)
              c.trajectory_y ∧
      (push_positions c ps).trajectory_z
          = (ps.map (fun p => p.2.2)).foldl (push1 c.trajectory_max_points)
              c.trajectory_z ∧
      (push_positions c ps).trajectory_max_points
          = c.trajectory_max_points := by
  intro ps
  induction ps with
  | nil => intro c _ _; exact ⟨rfl, rfl, rfl, rfl⟩
  | cons p ps ih =>
    intro c hy hz
    have hstep : push_positions c (p :: ps)
        = push_positions
            (add_trajectory_point { c with x := p.1, y := p.2.1, z := p.2.2 })
            ps := rfl
    rcases add_trajectory_components
        { c with x := p.1, y := p.2.1, z := p.2.2 } hy hz with ⟨ha, hb, hc, hd⟩
    have hylen : (add_trajectory_point
        { c with x := p.1, y := p.2.1, z := p.2.2 }).trajectory_y.length
          = (add_trajectory_point
            { c with x := p.1, y := p.2.1, z := p.2.2 }).trajectory_x.length := by
      rw [ha, hb]
      exact push1_length_eq _ _ _ _ _ hy
    have hzlen : (add_trajectory_point
        { c with x := p.1, y := p.2.1, z := p.2.2 }).trajectory_z.length
          = (add_trajectory_point
            { c with x := p.1, y := p.2.1, z := p.2.2 }).trajectory_x.length := by
      rw [ha, hc]
      exact push1_length_eq _ _ _ _ _ hz
    rcases ih (add_trajectory_point
        { c with x := p.1, y := p.2.1, z := p.2.2 }) hylen hzlen
      with ⟨i1, i2, i3, i4⟩
    rw [hstep]
    refine ⟨?_, ?_, ?_, ?_⟩
    · rw [i1, ha, hd]
      rfl
    · rw [i2, hb, hd]
      rfl
    · rw [i3, hc, hd]
      rfl
    · rw [i4, hd]

/-- The `push1` fold started within capacity retains exactly the most
recent `cap` values: it is the suffix of the appended stream. -/
lemma foldl_push1_eq_drop (cap : ℕ) :
    ∀ (vs : List ℚ) (l : List ℚ), l.length ≤ cap →
      vs.foldl (push1 cap) l = (l ++ vs).drop (l.length + vs.length - cap) := by
  intro vs
  induction vs with
  | nil =>
    intro l hl
    simp only [List.foldl_nil, List.append_nil, List.length_nil, Nat.add_zero,
      Nat.sub_eq_zero_of_le hl, List.drop_zero]
  | cons v vs ih =>
    intro l hl
    rw [List.foldl_cons]
    have hl1 : (1 : ℕ) ≤ (l ++ [v]).length := by
      simp only [List.length_append, List.length_singleton]
      omega
    by_cases h : cap < (l ++ [v]).length
    · have hpush : push1 cap l v = (l ++ [v]).drop 1 := by
        unfold push1
        rw [if_pos h]
      have hlen2 : ((l ++ [v]).drop 1).length ≤ cap := by
        simp only [List.length_drop, List.length_append, List.length_singleton]
        simp only [List.length_append, List.length_singleton] at h
        omega
      rw [hpush, ih _ hlen2]
      rw [show (l ++ [v]).drop 1 ++ vs = ((l ++ [v]) ++ vs).drop 1 from
        (List.drop_append_of_le_length hl1).symm]
      rw [List.drop_drop, List.append_assoc, List.singleton_append]
      congr 1
      simp only [List.length_drop, List.length_append, List.length_cons,
        List.length_nil] at h ⊢
      omega
    · have hpush : push1 cap l v = l ++ [v] := by
        unfold push1
        rw [if_neg h]
      have hlen2 : (l ++ [v]).length ≤ cap := by
        simp only [List.length_append, List.length_singleton] at h ⊢
        omega
      rw [hpush, ih _ hlen2, List.append_assoc, List.singleton_append]
      congr 1
      simp only [List.length_append, List.length_cons, List.length_nil] at h ⊢
      omega

/-- C5: starting from empty buffers, any sequence of pushes leaves each
coordinate buffer holding exactly the most recent samples — the suffix of
the pushed stream of length `min (number pushed) capacity`, in insertion
order (oldest first) — and the buffer length never exceeds the
capacity.  (Because the push sequence is arbitrary, the bound holds after
every intermediate push as well; queries over the resulting buffer are
pure functions and mutate nothing.) -/
theorem trajectory_sliding_window (b : CelestialBody) (ps : List (ℚ × ℚ × ℚ))
    (hx : b.trajectory_x = []) (hy : b.trajectory_y = [])
    (hz : b.trajectory_z = []) :
    (push_positions b ps).trajectory_x
        = (ps.map (fun p => p.1)).drop (ps.length - b.trajectory_max_points) ∧
    (push_positions b ps).trajectory_y
        = (ps.map (fun p => p.2.1)).drop (ps.length - b.trajectory_max_points) ∧
    (push_positions b ps).trajectory_z
        = (ps.map (fun p => p.2.2)).drop (ps.length - b.trajectory_max_points) ∧
    (push_positions b ps).trajectory_x.length ≤ b.trajectory_max_points ∧
    (push_positions b ps).trajectory_x.length
        = min ps.length b.trajectory_max_points := by
  rcases push_positions_components ps b (by rw [hy, hx]) (by rw [hz, hx])
    with ⟨h1, h2, h3, _⟩
  rw [h1, h2, h3, hx, hy, hz]
  have e1 := foldl_push1_eq_drop b.trajectory_max_points
    (ps.map (fun p => p.1)) [] (by simp)
  have e2 := foldl_push1_eq_drop b.trajectory_max_points
    (ps.map (fun p => p.2.1)) [] (by simp)
  have e3 := foldl_push1_eq_drop b.trajectory_max_points
    (ps.map (fun p => p.2.2)) [] (by simp)
  simp only [List.nil_append, List.length_nil, Nat.zero_add, List.length_map]
    at e1 e2 e3
  rw [e1, e2, e3]
  refine ⟨rfl, rfl, rfl, ?_, ?_⟩ <;>
    simp only [List.length_drop, List.length_map] <;> omega

/-- Witness for C5: capacity-2 body, three pushes; the theorem applies
with all hypotheses discharged on the concrete input. -/
theorem trajectory_sliding_window_witness :
    bodyP.trajectory_x = [] ∧
    (push_positions bodyP [(1, 2, 3), (4, 5, 6), (7, 8, 9)]).trajectory_x
      = (([(1, 2, 3), (4, 5, 6), (7, 8, 9)] :
          List (ℚ × ℚ × ℚ)).map (fun p => p.1)).drop
          ([(1, 2, 3), (4, 5, 6), (7, 8, 9)].length
            - bodyP.trajectory_max_points) :=
  ⟨rfl,
    (trajectory_sliding_window bodyP [(1, 2, 3), (4, 5, 6), (7, 8, 9)]
      rfl rfl rfl).1⟩

/-! ### C4 -/

/-- `step` never touches a body's trajectory buffer or capacity. -/
lemma step_traj_fields (sq : ℚ → ℚ) (s : SolarSystem) (dt : ℚ) (k : ℕ)
    (h : k < s.bodies.length) :
    ((step sq s dt).bodies.getD k default).trajectory_x
        = (s.bodies.getD k default).trajectory_x ∧
    ((step sq s dt).bodies.getD k default).trajectory_max_points
        = (s.bodies.getD k default).trajectory_max_points := by
  rw [step_getD sq s dt k h, verlet_half_getD s dt k h]
  exact ⟨rfl, rfl⟩

/-- Below capacity, `add_trajectory_point` grows the x-buffer by exactly
one sample and keeps the capacity. -/
lemma atp_length_no_evict (c : CelestialBody)
    (h : c.trajectory_x.length + 1 ≤ c.trajectory_max_points) :
    (add_trajectory_point c).trajectory_x.length
        = c.trajectory_x.length + 1 ∧
    (add_trajectory_point c).trajectory_max_points
        = c.trajectory_max_points := by
  unfold add_trajectory_point
  rw [if_neg (by
    simp only [List.length_append, List.length_cons, List.length_nil]
    omega)]
  refine ⟨?_, rfl⟩
  simp only [List.length_append, List.length_cons, List.length_nil]

/-- `run_steps` preserves the body count. -/
lemma run_steps_length (sq : ℚ → ℚ) (dt : ℚ) :
    ∀ (idxs : List ℕ) (s : SolarSystem),
      (run_steps sq dt s idxs).bodies.length = s.bodies.length := by
  intro idxs
  induction idxs with
  | nil => intro s; rfl
  | cons i l ih =>
    intro s
    rw [run_steps_cons, ih]
    by_cases h : i % 10 = 0 <;> simp [h, step_bodies_length]

/-- While no body overflows its capacity, each loop iteration of the
batch run grows each body's x-buffer by one exactly on the sampled
indices (`i % 10 = 0`), and capacities never change. -/
lemma run_steps_traj_len (sq : ℚ → ℚ) (dt : ℚ) :
    ∀ (idxs : List ℕ) (s : SolarSystem),
      (∀ k, k < s.bodies.length →
        (s.bodies.getD k default).trajectory_x.length
            + idxs.countP (fun i => i % 10 = 0)
          ≤ (s.bodies.getD k default).trajectory_max_points) →
      ∀ k, k < s.bodies.length →
        ((run_steps sq dt s idxs).bodies.getD k default).trajectory_x.length
            = (s.bodies.getD k default).trajectory_x.length
              + idxs.countP (fun i => i % 10 = 0) ∧
        ((run_steps sq dt s idxs).bodies.getD k default).trajectory_max_points
            = (s.bodies.getD k default).trajectory_max_points := by
  intro idxs
  induction idxs with
  | nil =>
    intro s _ k _
    simp [run_steps, List.countP_nil]
  | cons i l ih =>
    intro s hinv k hk
    have hcnt : List.countP (fun i => decide (i % 10 = 0)) (i :: l)
        = List.countP (fun i => decide (i % 10 = 0)) l
          + (if i % 10 = 0 then 1 else 0) := by
      rw [List.countP_cons]
      by_cases h : i % 10 = 0 <;> simp [h]
    have hlen1 : (if i % 10 = 0 then
        { step sq s dt with
          bodies := (step sq s dt).bodies.map add_trajectory_point }
      else step sq s dt).bodies.length = s.bodies.length := by
      by_cases h : i % 10 = 0 <;> simp [h, step_bodies_length]
    have hone : ∀ k, k < s.bodies.length →
        ((if i % 10 = 0 then
            { step sq s dt with
              bodies := (step sq s dt).bodies.map add_trajectory_point }
          else step sq s dt).bodies.getD k default).trajectory_x.length
            = (s.bodies.getD k default).trajectory_x.length
              + (if i % 10 = 0 then 1 else 0) ∧
        ((if i % 10 = 0 then
            { step sq s dt with
              bodies := (step sq s dt).bodies.map add_trajectory_point }
          else step sq s dt).bodies.getD k default).trajectory_max_points
            = (s.bodies.getD k default).trajectory_max_points := by
      intro k hk
      rcases step_traj_fields sq s dt k hk with ⟨hsx, hsm⟩
      by_cases h : i % 10 = 0
      · rw [if_pos h, if_pos h]
        have hb : ({ step sq s dt with
            bodies := (step sq s dt).bodies.map add_trajectory_point }).bodies
              = (step sq s dt).bodies.map add_trajectory_point := rfl
        rw [hb, getD_map_lt _ _ _ (by rw [step_bodies_length]; exact hk)]
        have hcap :
            ((step sq s dt).bodies.getD k default).trajectory_x.length + 1
              ≤ ((step sq s dt).bodies.getD k default).trajectory_max_points := by
          rw [hsx, hsm]
          have hinvk := hinv k hk
          rw [hcnt, if_pos h] at hinvk
          omega
        rcases atp_length_no_evict _ hcap with ⟨h1, h2⟩
        rw [h1, h2, hsx, hsm]
        exact ⟨rfl, rfl⟩
      · rw [if_neg h, if_neg h]
        rw [hsx, hsm]
        exact ⟨by omega, rfl⟩
    have hinv1 : ∀ k, k < (if i % 10 = 0 then
        { step sq s dt with
          bodies := (step sq s dt).bodies.map add_trajectory_point }
      else step sq s dt).bodies.length →
        ((if i % 10 = 0 then
            { step sq s dt with
              bodies := (step sq s dt).bodies.map add_trajectory_point }
          else step sq s dt).bodies.getD k default).trajectory_x.length
            + l.countP (fun i => i % 10 = 0)
          ≤ ((if i % 10 = 0 then
            { step sq s dt with
              bodies := (step sq s dt).bodies.map add_trajectory_point }
          else step sq s dt).bodies.getD k default).trajectory_max_points := by
      intro k hk1
      have hk' : k < s.bodies.length := by rw [← hlen1]; exact hk1
      rcases hone k hk' with ⟨e1, e2⟩
      rw [e1, e2]
      have hinvk := hinv k hk'
      rw [hcnt] at hinvk
      by_cases h : i % 10 = 0
      · rw [if_pos h] at hinvk ⊢
        omega
      · rw [if_neg h] at hinvk ⊢
        omega
    rw [run_steps_cons]
    rcases ih _ hinv1 k (by rw [hlen1]; exact hk) with ⟨r1, r2⟩
    rcases hone k hk with ⟨e1, e2⟩
    rw [r1, r2, e1, e2, hcnt]
    by_cases h : i % 10 = 0
    · rw [if_pos h]
      exact ⟨by omega, rfl⟩
    · rw [if_neg h]
      exact ⟨by omega, rfl⟩

/-- The number of sampled indices among `0, …, n−1` (those divisible by
10) is `(n+9)/10`. -/
lemma countP_mod10_range :
    ∀ n : ℕ, (List.range n).countP (fun i => i % 10 = 0) = (n + 9) / 10 := by
  intro n
  induction n with
  | zero => rfl
  | succ n ih =>
    rw [List.range_succ, List.countP_append, ih, List.countP_cons]
    simp only [List.countP_nil]
    by_cases h : n % 10 = 0 <;> simp [h] <;> omega

/-- For a nonnegative quotient, `static_cast<int>` truncation agrees with
the floor. -/
lemma ratTrunc_nonneg_eq_floor (q : ℚ) (h : 0 ≤ q) : ratTrunc q = ⌊q⌋ := by
  unfold ratTrunc
  rw [Int.tdiv_eq_ediv (Rat.num_nonneg.mpr h) (Int.natCast_nonneg _)]
  rw [Rat.floor_def]

/-- C4 (amended): `run(duration, dt)` executes
`static_cast<int>(duration/dt)` iterations — which equals
`floor(duration/dt)` whenever the quotient is nonnegative, and zero
iterations when the quotient is negative — so the step counter gains that
many steps and the clock gains that multiple of `dt`; sampling happens at
the fixed hardcoded stride 10 (iterations with `i % 10 = 0`, not a
caller-configurable stride), pushing one position sample per body per
sampled iteration, so starting from empty, sufficiently capacious buffers
each body ends with `(steps+9)/10` samples. -/
theorem simulate_trunc_stride (sq : ℚ → ℚ) (s : SolarSystem)
    (duration dt : ℚ)
    (hbuf : ∀ k, k < s.bodies.length →
      (s.bodies.getD k default).trajectory_x = [] ∧
      ((ratTrunc (duration / dt)).toNat + 9) / 10
        ≤ (s.bodies.getD k default).trajectory_max_points) :
    (simulate sq s duration dt).step_count
        = s.step_count + (ratTrunc (duration / dt)).toNat ∧
    (simulate sq s duration dt).simulation_time
        = s.simulation_time + (ratTrunc (duration / dt)).toNat * dt ∧
    (0 ≤ duration / dt → ratTrunc (duration / dt) = ⌊duration / dt⌋) ∧
    ∀ k, k < s.bodies.length →
      ((simulate sq s duration dt).bodies.getD k default).trajectory_x.length
        = ((ratTrunc (duration / dt)).toNat + 9) / 10 := by
  rcases run_steps_count_time sq dt
    (List.range (ratTrunc (duration / dt)).toNat) s with ⟨hc, ht⟩
  refine ⟨?_, ?_, fun hq => ratTrunc_nonneg_eq_floor _ hq, ?_⟩
  · have hproj : (simulate sq s duration dt).step_count
        = (run_steps sq dt s
            (List.range (ratTrunc (duration / dt)).toNat)).step_count := rfl
    rw [hproj, hc, List.length_range]
  · have hproj : (simulate sq s duration dt).simulation_time
        = (run_steps sq dt s
            (List.range (ratTrunc (duration / dt)).toNat)).simulation_time := rfl
    rw [hproj, ht, List.length_range]
  · intro k hk
    have hproj : (simulate sq s duration dt).bodies
        = (run_steps sq dt s
            (List.range (ratTrunc (duration / dt)).toNat)).bodies := rfl
    rw [hproj]
    have hinv : ∀ k, k < s.bodies.length →
        (s.bodies.getD k default).trajectory_x.length
            + (List.range (ratTrunc (duration / dt)).toNat).countP
                (fun i => i % 10 = 0)
          ≤ (s.bodies.getD k default).trajectory_max_points := by
      intro k hk
      rcases hbuf k hk with ⟨hempty, hcap⟩
      rw [hempty, countP_mod10_range]
      simpa using hcap
    rcases run_steps_traj_len sq dt _ s hinv k hk with ⟨r1, _⟩
    rw [r1, (hbuf k hk).1, countP_mod10_range]
    simp

/-- Witness for C4's amended theorem: one body, `duration = 20`,
`dt = 1`, so 20 iterations, samples at i = 0 and i = 10. -/
theorem simulate_trunc_stride_witness :
    (∀ k, k < sysOne.bodies.length →
      (sysOne.bodies.getD k default).trajectory_x = [] ∧
      ((ratTrunc ((20 : ℚ) / 1)).toNat + 9) / 10
        ≤ (sysOne.bodies.getD k default).trajectory_max_points) ∧
    (simulate sqW sysOne 20 1).step_count
        = sysOne.step_count + (ratTrunc ((20 : ℚ) / 1)).toNat := by
  have h20 : ratTrunc ((20 : ℚ) / 1) = 20 := by
    rw [div_one]
    rfl
  have hyp : ∀ k, k < sysOne.bodies.length →
      (sysOne.bodies.getD k default).trajectory_x = [] ∧
      ((ratTrunc ((20 : ℚ) / 1)).toNat + 9) / 10
        ≤ (sysOne.bodies.getD k default).trajectory_max_points := by
    intro k hk
    have hk1 : k < 1 := hk
    have hk0 : k = 0 := by omega
    subst hk0
    rw [h20]
    exact ⟨rfl, by decide⟩
  exact ⟨hyp, (simulate_trunc_stride sqW sysOne 20 1 hyp).1⟩

/-- C4 counterexample: at `duration = -1`, `dt = 1` the claim demands
`floor(duration/dt) = -1` calls — the code runs the loop zero times and
the counter stays put, because `static_cast<int>` truncation of a
negative quotient is not its floor and a non-positive iteration bound
skips the loop entirely. -/
theorem simulate_negative_duration_counterexample :
    (simulate sqW sysOne (-1) 1).step_count = 0 ∧
    sysOne.step_count = 0 ∧
    ⌊(-1 : ℚ) / 1⌋ = -1 := by
  refine ⟨?_, rfl, ?_⟩
  · have h : ratTrunc ((-1 : ℚ) / 1) = -1 := by
      rw [div_one]
      rfl
    have hproj : (simulate sqW sysOne (-1) 1).step_count
        = (run_steps sqW 1 sysOne
            (List.range (ratTrunc ((-1 : ℚ) / 1)).toNat)).step_count := rfl
    rw [hproj, h]
    rfl
  · rw [div_one]
    norm_num

/-! ### C10 -/

/-- `getD` on an append, inside the first part. -/
lemma getD_append_lt (l1 l2 : List ℚ) (n : ℕ) (h : n < l1.length) :
    (l1 ++ l2).getD n 0 = l1.getD n 0 := by
  rw [List.getD_eq_getElem?_getD, List.getD_eq_getElem?_getD,
    List.getElem?_append_left h]

/-- `getD` on an append, past the first part. -/
lemma getD_append_ge (l1 l2 : List ℚ) (n : ℕ) (h : l1.length ≤ n) :
    (l1 ++ l2).getD n 0 = l2.getD (n - l1.length) 0 := by
  rw [List.getD_eq_getElem?_getD, List.getD_eq_getElem?_getD,
    List.getElem?_append_right h]

/-- `getD` on `List.range` inside bounds. -/
lemma range_getD (n k : ℕ) (h : k < n) : (List.range n).getD k 0 = k := by
  rw [List.getD_eq_getElem?_getD, List.getElem?_eq_getElem (by simpa using h)]
  simp [List.getElem_range]

/-- Flattening equal-size-3 blocks triples the length. -/
lemma flatten_blocks_length {α : Type} (g : α → List ℚ)
    (hg : ∀ a, (g a).length = 3) :
    ∀ l : List α, ((l.map g).flatten).length = 3 * l.length := by
  intro l
  induction l with
  | nil => rfl
  | cons a l ih =>
    simp only [List.map_cons, List.flatten_cons, List.length_append, ih, hg,
      List.length_cons]
    ring

/-- Indexing into a flattening of size-3 blocks: position `3k + r` reads
component `r` of block `k`. -/
lemma flatten_blocks_getD {α : Type} (g : α → List ℚ)
    (hg : ∀ a, (g a).length = 3) (d : α) :
    ∀ (l : List α) (k r : ℕ), r < 3 → k < l.length →
      ((l.map g).flatten).getD (3 * k + r) 0 = (g (l.getD k d)).getD r 0 := by
  intro l
  induction l with
  | nil => intro k r _ hk; simp at hk
  | cons a l ih =>
    intro k r hr hk
    simp only [List.map_cons, List.flatten_cons]
    cases k with
    | zero =>
      rw [Nat.mul_zero, Nat.zero_add]
      rw [getD_append_lt _ _ _ (by rw [hg]; exact hr)]
      rfl
    | succ k =>
      have hidx : 3 * (k + 1) + r = (g a).length + (3 * k + r) := by
        rw [hg]; ring
      rw [hidx, getD_append_ge _ _ _ (Nat.le_add_right _ _),
        Nat.add_sub_cancel_left]
      have hcons : (a :: l).getD (k + 1) d = l.getD k d := rfl
      rw [hcons]
      exact ih k r hr (by simpa using hk)

/-- `get_trajectory` on a valid index unfolds to the flattened, AU-scaled
sample blocks. -/
lemma get_trajectory_valid (s : SolarSystem) (idx : Int)
    (h0 : 0 ≤ idx) (h1 : idx < (s.bodies.length : Int)) :
    get_trajectory s idx
      = ((List.range
            (s.bodies.getD idx.toNat default).trajectory_x.length).map
          (fun i =>
            [(s.bodies.getD idx.toNat default).trajectory_x.getD i 0 / AU,
             (s.bodies.getD idx.toNat default).trajectory_y.getD i 0 / AU,
             (s.bodies.getD idx.toNat default).trajectory_z.getD i 0 / AU])).flatten := by
  unfold get_trajectory
  rw [if_neg (by push_neg; omega)]

/-- C10: the trajectory query returns each buffered sample's coordinates
divided by `AU`, flattened `[x, y, z, …]` oldest first (multiplying any
returned entry by `AU` recovers the stored meter value), while the
positions query returns the bodies' coordinates in meters unscaled — so
the two query surfaces differ in units exactly by the constant factor
`AU`. -/
theorem trajectory_au_vs_positions_m (s : SolarSystem) (idx : Int)
    (h0 : 0 ≤ idx) (h1 : idx < (s.bodies.length : Int)) :
    (get_trajectory s idx).length
        = 3 * (s.bodies.getD idx.toNat default).trajectory_x.length ∧
    (∀ k, k < (s.bodies.getD idx.toNat default).trajectory_x.length →
      (get_trajectory s idx).getD (3 * k) 0 * AU
          = (s.bodies.getD idx.toNat default).trajectory_x.getD k 0 ∧
      (get_trajectory s idx).getD (3 * k + 1) 0 * AU
          = (s.bodies.getD idx.toNat default).trajectory_y.getD k 0 ∧
      (get_trajectory s idx).getD (3 * k + 2) 0 * AU
          = (s.bodies.getD idx.toNat default).trajectory_z.getD k 0) ∧
    (get_positions s).length = 3 * s.bodies.length ∧
    (∀ j, j < s.bodies.length →
      (get_positions s).getD (3 * j) 0 = (s.bodies.getD j default).x ∧
      (get_positions s).getD (3 * j + 1) 0 = (s.bodies.getD j default).y ∧
      (get_positions s).getD (3 * j + 2) 0 = (s.bodies.getD j default).z) := by
  have hAU : (AU : ℚ) ≠ 0 := by norm_num [AU]
  have hpos : get_positions s
      = ((s.bodies.map (fun b => [b.x, b.y, b.z])).flatten) := rfl
  rw [get_trajectory_valid s idx h0 h1, hpos]
  refine ⟨?_, ?_, ?_, ?_⟩
  · rw [flatten_blocks_length
      (fun i =>
        [(s.bodies.getD idx.toNat default).trajectory_x.getD i 0 / AU,
         (s.bodies.getD idx.toNat default).trajectory_y.getD i 0 / AU,
         (s.bodies.getD idx.toNat default).trajectory_z.getD i 0 / AU])
      (fun i => rfl), List.length_range]
  · intro k hk
    refine ⟨?_, ?_, ?_⟩
    · have hb := flatten_blocks_getD
        (fun i =>
          [(s.bodies.getD idx.toNat default).trajectory_x.getD i 0 / AU,
           (s.bodies.getD idx.toNat default).trajectory_y.getD i 0 / AU,
           (s.bodies.getD idx.toNat default).trajectory_z.getD i 0 / AU])
        (fun i => rfl) 0
        (List.range (s.bodies.getD idx.toNat default).trajectory_x.length)
        k 0 (by omega) (by simpa using hk)
      rw [Nat.add_zero] at hb
      rw [hb, range_getD _ _ hk]
      exact div_mul_cancel₀ _ hAU
    · have hb := flatten_blocks_getD
        (fun i =>
          [(s.bodies.getD idx.toNat default).trajectory_x.getD i 0 / AU,
           (s.bodies.getD idx.toNat default).trajectory_y.getD i 0 / AU,
           (s.bodies.getD idx.toNat default).trajectory_z.getD i 0 / AU])
        (fun i => rfl) 0
        (List.range (s.bodies.getD idx.toNat default).trajectory_x.length)
        k 1 (by omega) (by simpa using hk)
      rw [hb, range_getD _ _ hk]
      exact div_mul_cancel₀ _ hAU
    · have hb := flatten_blocks_getD
        (fun i =>
          [(s.bodies.getD idx.toNat default).trajectory_x.getD i 0 / AU,
           (s.bodies.getD idx.toNat default).trajectory_y.getD i 0 / AU,
           (s.bodies.getD idx.toNat default).trajectory_z.getD i 0 / AU])
        (fun i => rfl) 0
        (List.range (s.bodies.getD idx.toNat default).trajectory_x.length)
        k 2 (by omega) (by simpa using hk)
      rw [hb, range_getD _ _ hk]
      exact div_mul_cancel₀ _ hAU
  · rw [flatten_blocks_length
      (fun b : CelestialBody => [b.x, b.y, b.z]) (fun a => rfl)]
  · intro j hj
    refine ⟨?_, ?_, ?_⟩
    · have hb := flatten_blocks_getD
        (fun b : CelestialBody => [b.x, b.y, b.z])
        (fun a => rfl) default s.bodies j 0 (by omega) hj
      rw [Nat.add_zero] at hb
      rw [hb]
      rfl
    · have hb := flatten_blocks_getD
        (fun b : CelestialBody => [b.x, b.y, b.z])
        (fun a => rfl) default s.bodies j 1 (by omega) hj
      rw [hb]
      rfl
    · have hb := flatten_blocks_getD
        (fun b : CelestialBody => [b.x, b.y, b.z])
        (fun a => rfl) default s.bodies j 2 (by omega) hj
      rw [hb]
      rfl

/-- Witness for C10 on the concrete system with a populated buffer. -/
theorem trajectory_au_vs_positions_m_witness :
    (0 : Int) ≤ 0 ∧ (0 : Int) < (sysT.bodies.length : Int) ∧
    (get_trajectory sysT 0).length
        = 3 * (sysT.bodies.getD (0 : Int).toNat default).trajectory_x.length :=
  ⟨le_refl 0, by decide,
    (trajectory_au_vs_positions_m sysT 0 (le_refl 0) (by decide)).1⟩

end IncludeCPP
